import Mathlib

/-!
Verification of the book-finder availability pipeline.

Shallow embedding of the Python sources of the repository:
  * `src/weread_api.py`   — `WeReadSearchResult`, `WeReadAPIClient.search_book`
  * `src/llm_analyzer.py` — `LLMAnalyzer._parse_llm_response`,
    `analyze_search_result`, `generate_search_keywords`,
    `_parse_keywords_response`, `SearchKeywordsResult`, `BookAnalysisResult`
  * `src/main.py`         — `BookFinderApp._search_books_sync`,
    `_analyze_results`, `_update_notion`, `_send_notification`

Remote collaborators (the HTTP search endpoint and the LLM chat endpoint)
are modelled as oracles: a function from the attempt index to the outcome
of that attempt.  The Python `json.loads` standard-library decoder is an
external collaborator as well and is modelled as a parameter
`dec : String → Option PyVal` (`none` models a raised `JSONDecodeError`).

Python dynamic values that flow out of decoded JSON are modelled by the
inductive type `PyVal`; Python truthiness, `str.find` / `str.rfind`,
slicing (including negative indices) and `dict.get` are modelled
explicitly so that the control flow of the source is reproduced exactly.
-/

/-- Model of a Python value as produced by `json.loads` (or passed around
dynamically).  `\x7b`-free rendering of dicts as association lists. -/
inductive PyVal where
  | none : PyVal
  | bool : Bool → PyVal
  | num : Rat → PyVal
  | str : String → PyVal
  | list : List PyVal → PyVal
  | dict : List (String × PyVal) → PyVal

/-- Python truthiness (`if v:`) for the values we model. -/
def PyVal.truthy : PyVal → Bool
  | .none => false
  | .bool b => b
  | .num q => q ≠ 0
  | .str s => s ≠ ""
  | .list l => ¬ l.isEmpty
  | .dict l => ¬ l.isEmpty

/-- Python `d.get(key, default)` on a dict value. -/
def PyVal.get (v : PyVal) (key : String) (dflt : PyVal) : PyVal :=
  match v with
  | .dict l => match l.lookup key with
    | some x => x
    | Option.none => dflt
  | _ => dflt

/-- Whether a `PyVal` is a dict (calling `.get` on a non-dict raises
`AttributeError` in Python). -/
def PyVal.isDict : PyVal → Bool
  | .dict _ => true
  | _ => false

/-- Python type name as printed inside an `AttributeError` message. -/
def PyVal.typeName : PyVal → String
  | .none => "NoneType"
  | .bool _ => "bool"
  | .num _ => "float"
  | .str _ => "str"
  | .list _ => "list"
  | .dict _ => "dict"

/-- The message of the `AttributeError` raised by `v.get(...)` when `v` is
not a dict. -/
def noGetAttrMsg (v : PyVal) : String :=
  "'" ++ v.typeName ++ "' object has no attribute 'get'"

/-- Python rendering of an optional string inside an f-string:
`None` prints as `"None"`. -/
def pyStrOpt : Option String → String
  | Option.none => "None"
  | some s => s

/-- Python rendering of an optional integer inside an f-string. -/
def pyStrOptInt : Option Int → String
  | Option.none => "None"
  | some n => toString n

/-- Python `sub in s` / `s.find(sub, start)` helper: does `sub` occur as a
prefix of `l`? -/
def isPrefixOfChars (sub l : List Char) : Bool :=
  sub.isPrefixOf l

/-- Python `s.find(sub, start)`: lowest index `≥ start` at which `sub`
occurs in `s`, or `-1`.  Operates on the code-point list of the string,
matching Python per-character indexing. -/
def pyFindAux (s sub : List Char) (idx : Nat) : Int :=
  match s with
  | [] => if sub.isEmpty then (idx : Int) else -1
  | _ :: rest =>
    if isPrefixOfChars sub s then (idx : Int)
    else pyFindAux rest sub (idx + 1)

/-- Python `s.find(sub, start)`. -/
def pyFind (s sub : List Char) (start : Nat) : Int :=
  match pyFindAux (s.drop start) sub 0 with
  | -1 => -1
  | i => i + (min start s.length : Nat)

/-- Python `s.rfind(sub)` for a single-character needle: highest index at
which the character occurs, or `-1`. -/
def pyRFindChar (s : List Char) (c : Char) : Int :=
  match s with
  | [] => -1
  | a :: rest =>
    match pyRFindChar rest c with
    | -1 => if a = c then 0 else -1
    | i => i + 1

/-- Python slice `s[a:b]` where `a : Nat` and `b : Int` (a negative `b`
counts from the end, as in `s[start:-1]` when `find` returned `-1`). -/
def pySlice (s : List Char) (a : Nat) (b : Int) : List Char :=
  let n : Int := s.length
  let b' : Int := if b < 0 then b + n else b
  let b'' : Nat := (max 0 (min b' n)).toNat
  (s.take b'').drop a

/-- Python `str.strip()` (whitespace on both ends). -/
def pyStrip (s : List Char) : List Char :=
  (s.dropWhile Char.isWhitespace).reverse.dropWhile Char.isWhitespace |>.reverse

/-- Spec-level name for the three availability classifications derived in
`WeReadAPIClient.search_book` (src/weread_api.py lines 121–131). -/
inductive AvailabilityState where
  | Readable : AvailabilityState
  | PendingRelease : AvailabilityState
  | Unknown : AvailabilityState
deriving DecidableEq

/-- The branch taken by the status derivation in
`WeReadAPIClient.search_book`:

    if book_status == 1 and soldout == 0: ...
    elif book_status == 5 or soldout == 1: ...
    else: ...

`bookStatus` is `book_info.get('bookStatus', None)` and `soldout` is
`book_info.get('soldout', 0)`. -/
def availabilityState (bookStatus : Option Int) (soldout : Int) : AvailabilityState :=
  if bookStatus = some 1 ∧ soldout = 0 then .Readable
  else if bookStatus = some 5 ∨ soldout = 1 then .PendingRelease
  else .Unknown

/-- The human-readable `availability_status` string assigned in the same
branches of `search_book`. -/
def availabilityStatusText (bookStatus : Option Int) (soldout : Int) : String :=
  match availabilityState bookStatus soldout with
  | .Readable => "已上架可阅读"
  | .PendingRelease => "待上架（可订阅但不可阅读）"
  | .Unknown =>
    "未知状态(bookStatus=" ++ pyStrOptInt bookStatus ++ ", soldout=" ++ toString soldout ++ ")"

/-- The fixed default object returned by `LLMAnalyzer._parse_llm_response`
when every extraction layer fails (src/llm_analyzer.py lines 263–272). -/
def defaultAnalysisObj : PyVal :=
  .dict [("is_available", .bool false), ("confidence", .num 0),
         ("matched_title", .none), ("matched_author", .none),
         ("reasoning", .str "LLM响应解析失败"), ("recommended_keywords", .list [])]

/-- The opening marker of a fenced JSON block (7 characters). -/
def fenceOpen : List Char := "```json".data

/-- A fence marker. -/
def fenceMarker : List Char := "```".data

/-- The opening-brace character. -/
def braceOpen : Char := Char.ofNat 123

/-- The closing-brace character. -/
def braceClose : Char := Char.ofNat 125

/-- Embedding of `LLMAnalyzer._parse_llm_response` (src/llm_analyzer.py lines 233–272),
with `json.loads` modelled by the decoder parameter `dec` (`none` models a
raised `json.JSONDecodeError`).  Transliterated control flow:
try `json.loads` on the whole text; on failure, if `"```json"` occurs,
slice from 7 past its first occurrence to the next `"```"` occurrence
(`find` returning `-1` making the slice run to the end minus one
character, as in Python), strip, and try to parse; on failure, slice from
the first `'` + `braceOpen` + `'` to one past the last closing brace and try to
parse; otherwise return `defaultAnalysisObj`. -/
def parseLlmResponse (dec : String → Option PyVal) (text : String) : PyVal :=
  match dec text with
  | some v => v
  | Option.none =>
    let cs := text.data
    let fenced : Option PyVal :=
      if pyFind cs fenceOpen 0 ≥ 0 then
        let start := (pyFind cs fenceOpen 0).toNat + 7
        let stop := pyFind cs fenceMarker start
        dec (String.mk (pyStrip (pySlice cs start stop)))
      else Option.none
    match fenced with
    | some v => v
    | Option.none =>
      let sB := pyFind cs [braceOpen] 0
      let eB := pyRFindChar cs braceClose + 1
      if sB ≥ 0 ∧ eB > sB then
        match dec (String.mk (pySlice cs sB.toNat eB)) with
        | some v => v
        | Option.none => defaultAnalysisObj
      else defaultAnalysisObj

/-- Layer 1 of the extraction chain: strict decode of the whole text. -/
def strictLayer (dec : String → Option PyVal) (text : String) : Option PyVal :=
  dec text

/-- Layer 2 of the extraction chain as the code computes it: when the text
contains `"```json"`, take the characters after the marker up to the next
`"```"` marker — or, when no closing marker exists, up to the end of the
text excluding its final character (Python `s[start:-1]`) — strip
whitespace, and decode. -/
def fencedLayerByOffsets (dec : String → Option PyVal) (text : String) : Option PyVal :=
  let cs := text.data
  if pyFind cs fenceOpen 0 ≥ 0 then
    let start := (pyFind cs fenceOpen 0).toNat + 7
    let stop := pyFind cs fenceMarker start
    dec (String.mk (pyStrip (pySlice cs start stop)))
  else Option.none

/-- Layer 2 of the extraction chain as the spec words it: the contents of
a (closed) ```json fenced block — the text between the first `"```json"`
marker and the following `"```"` marker, stripped; no fenced block, no
attempt. -/
def fencedLayerBlock (dec : String → Option PyVal) (text : String) : Option PyVal :=
  let cs := text.data
  if pyFind cs fenceOpen 0 ≥ 0 then
    let start := (pyFind cs fenceOpen 0).toNat + 7
    let stop := pyFind cs fenceMarker start
    if stop ≥ 0 then dec (String.mk (pyStrip (pySlice cs start stop)))
    else Option.none
  else Option.none

/-- Layer 3 of the extraction chain: the span from the first opening brace
to the last closing brace of the text. -/
def braceSpanLayer (dec : String → Option PyVal) (text : String) : Option PyVal :=
  let cs := text.data
  let sB := pyFind cs [braceOpen] 0
  let eB := pyRFindChar cs braceClose + 1
  if sB ≥ 0 ∧ eB > sB then dec (String.mk (pySlice cs sB.toNat eB))
  else Option.none

/-- The fallback chain exactly as the spec words it (strict parse →
closed-fenced-block parse → brace-span parse → default object). -/
def specFallbackChain (dec : String → Option PyVal) (text : String) : PyVal :=
  (((strictLayer dec text).orElse
    (fun _ => fencedLayerBlock dec text)).orElse
    (fun _ => braceSpanLayer dec text)).getD defaultAnalysisObj

/-- The fallback chain with the fenced layer computed by string offsets as
in the source. -/
def fallbackChainByOffsets (dec : String → Option PyVal) (text : String) : PyVal :=
  (((strictLayer dec text).orElse
    (fun _ => fencedLayerByOffsets dec text)).orElse
    (fun _ => braceSpanLayer dec text)).getD defaultAnalysisObj

/-- A decoder behaving as `json.loads` does on the probe strings of the
counterexample text: `"[1]"` decodes to the one-element list, nothing else
decodes. -/
def decProbe : String → Option PyVal :=
  fun s => if s = "[1]" then some (.list [.num 1]) else Option.none

/-- One provider record: the `bookInfo` dict of one entry of the `books`
array of the search API response, with the fields `search_book` probes.
A `none` field models an absent key (every read uses `dict.get` with a
default). -/
structure RawBookInfo where
  title : Option String
  author : Option String
  bookId : Option String
  intro : Option String
  publisher : Option String
  bookStatus : Option Int
  payType : Option Int
  soldout : Option Int
  ispub : Option Int
  finished : Option Int
  price : Option Rat
deriving DecidableEq

/-- The dict appended to `found_books` for one provider record
(src/weread_api.py lines 133–147). -/
structure FoundBook where
  title : String
  author : String
  book_id : String
  intro : String
  publisher : String
  availability_status : String
  book_status : Option Int
  pay_type : Option Int
  soldout : Int
  ispub : Option Int
  finished : Option Int
  price : Option Rat
deriving DecidableEq

/-- Normalization of one provider record, as done inside the
`for book_data in books[:10]` loop of `search_book`. -/
def normalizeBookInfo (b : RawBookInfo) : FoundBook :=
  { title := b.title.getD ""
    author := b.author.getD ""
    book_id := b.bookId.getD ""
    intro := b.intro.getD ""
    publisher := b.publisher.getD ""
    availability_status := availabilityStatusText b.bookStatus (b.soldout.getD 0)
    book_status := b.bookStatus
    pay_type := b.payType
    soldout := b.soldout.getD 0
    ispub := b.ispub
    finished := b.finished
    price := b.price }

/-- Model of `WeReadSearchResult` (src/weread_api.py lines 14–33): the attributes
set by `__init__` from its parameters.  `has_results`, `html_content` and
`page_url` are derived attributes, modelled below. -/
structure WeReadSearchResult where
  book_title : String
  search_keyword : String
  found_books : List FoundBook
  total_count : Nat
  error : Option String
deriving DecidableEq

/-- Derived attribute `self.has_results = len(found_books) > 0`. -/
def WeReadSearchResult.has_results (r : WeReadSearchResult) : Bool :=
  decide (r.found_books.length > 0)

/-- The outcome of one HTTP attempt against the search endpoint, as
`search_book` distinguishes them: a 200 response with a parseable body
(carrying the `books` array and `totalCount`), a non-200 status, or a
raised exception. -/
inductive ApiAttempt where
  | success (books : List RawBookInfo) (totalCount : Nat) : ApiAttempt
  | httpError (status : Nat) : ApiAttempt
  | netError (msg : String) : ApiAttempt
deriving DecidableEq

/-- The value recorded into `last_error` by an attempt: `none` for a
successful attempt, `"HTTP <status>"` for a non-200 status, the exception
text for a raised exception. -/
def ApiAttempt.errOf : ApiAttempt → Option String
  | .success _ _ => Option.none
  | .httpError s => some ("HTTP " ++ toString s)
  | .netError m => some m

/-- The last recorded error after processing a list of attempts in order,
starting from `le` (the threading of the `last_error` variable). -/
def chainErr : Option String → List ApiAttempt → Option String
  | le, [] => le
  | le, a :: tr =>
    chainErr (match a.errOf with | some e => some e | Option.none => le) tr

/-- The retry loop for one keyword (`while retry_count < max_retries` in
`search_book`): `resp j` is the outcome of attempt `j` for this keyword,
`idx` the current attempt index, `fuel` the remaining retry budget, `le`
the incoming `last_error`.  Returns the found candidates (if any), the
updated `last_error`, and the list of attempts actually made. -/
def tryKeyword (resp : Nat → ApiAttempt) :
    Nat → Nat → Option String →
    Option (List FoundBook × Nat) × Option String × List ApiAttempt
  | _, 0, le => (Option.none, le, [])
  | idx, fuel + 1, le =>
    match resp idx with
    | .success books total =>
      let fb := (books.take 10).map normalizeBookInfo
      if fb.isEmpty then (Option.none, le, [.success books total])
      else (some (fb, total), le, [.success books total])
    | .httpError s =>
      let r := tryKeyword resp (idx + 1) fuel (some ("HTTP " ++ toString s))
      (r.1, r.2.1, .httpError s :: r.2.2)
    | .netError m =>
      let r := tryKeyword resp (idx + 1) fuel (some m)
      (r.1, r.2.1, .netError m :: r.2.2)

/-- The keyword loop of `search_book` (`for keyword in search_keywords`):
`oracle i j` is the outcome of attempt `j` for the keyword at position
`i`.  Returns the first keyword (with its candidates and total count)
whose retry loop produced a non-empty candidate list, the final
`last_error`, the chronological trace of attempts, and the number of
attempts made for each keyword actually tried. -/
def searchLoop (oracle : Nat → Nat → ApiAttempt) (maxRetries : Nat) :
    List String → Nat → Option String →
    Option (String × List FoundBook × Nat) × Option String ×
      List ApiAttempt × List Nat
  | [], _, le => (Option.none, le, [], [])
  | kw :: rest, i, le =>
    let t := tryKeyword (oracle i) 0 maxRetries le
    match t.1 with
    | some (fb, tot) => (some (kw, fb, tot), t.2.1, t.2.2, [t.2.2.length])
    | Option.none =>
      let r := searchLoop oracle maxRetries rest (i + 1) t.2.1
      (r.1, r.2.1, t.2.2 ++ r.2.2.1, t.2.2.length :: r.2.2.2)

/-- The default keyword list built when no custom keywords are supplied:
`[book_title]`, plus `"{title} {author}"` when `author` is truthy. -/
def defaultSearchKeywords (bt : String) (author : Option String) : List String :=
  bt :: (match author with
    | some a => if a = "" then [] else [bt ++ " " ++ a]
    | Option.none => [])

/-- The keyword list used by `search_book`: the custom keywords when the
argument is truthy (a non-empty list), the default list otherwise. -/
def searchKeywordsOf (bt : String) (author : Option String)
    (custom : Option (List String)) : List String :=
  match custom with
  | some l => if l.isEmpty then defaultSearchKeywords bt author else l
  | Option.none => defaultSearchKeywords bt author

/-- Python `a or d` for an optional string `a` (both `None` and the empty
string are falsy). -/
def pyOrStr (a : Option String) (d : String) : String :=
  match a with
  | some s => if s = "" then d else s
  | Option.none => d

/-- Embedding of `WeReadAPIClient.search_book` (src/weread_api.py lines 59–194),
instrumented: besides the `WeReadSearchResult`, also returns the
chronological trace of endpoint attempts and the per-keyword attempt
counts (which keywords were sent, and how many times). -/
def search_book_traced (oracle : Nat → Nat → ApiAttempt) (maxRetries : Nat)
    (bookTitle : String) (author : Option String)
    (custom : Option (List String)) :
    WeReadSearchResult × List ApiAttempt × List Nat :=
  let kws := searchKeywordsOf bookTitle author custom
  let r := searchLoop oracle maxRetries kws 0 Option.none
  match r.1 with
  | some (kw, fb, tot) =>
    ({ book_title := bookTitle, search_keyword := kw, found_books := fb,
       total_count := tot, error := Option.none }, r.2.2.1, r.2.2.2)
  | Option.none =>
    ({ book_title := bookTitle, search_keyword := kws.headD "",
       found_books := [], total_count := 0,
       error := some (pyOrStr r.2.1 "未找到搜索结果") }, r.2.2.1, r.2.2.2)

/-- The `search_book` result proper: the result part of the instrumented version. -/
def search_book (oracle : Nat → Nat → ApiAttempt) (maxRetries : Nat)
    (bookTitle : String) (author : Option String)
    (custom : Option (List String)) : WeReadSearchResult :=
  (search_book_traced oracle maxRetries bookTitle author custom).1

/-- A concrete provider record for witnesses. -/
def witnessBook : RawBookInfo :=
  { title := some "人类简史", author := some "尤瓦尔·赫拉利",
    bookId := some "b1", intro := Option.none, publisher := Option.none,
    bookStatus := some 1, payType := Option.none, soldout := some 0,
    ispub := Option.none, finished := Option.none, price := Option.none }

/-- A concrete endpoint oracle: keyword 0 always answers success with zero
records, keyword 1 answers HTTP 500 on its first attempt and a one-record
success on its second. -/
def witnessOracle : Nat → Nat → ApiAttempt :=
  fun i j =>
    if i = 0 then .success [] 0
    else if j = 0 then .httpError 500
    else .success [witnessBook] 3

/-- A concrete endpoint oracle whose every attempt fails with a network
error for keyword 0 and an HTTP 503 for keyword 1. -/
def exhaustedOracle : Nat → Nat → ApiAttempt :=
  fun i _ => if i = 0 then .netError "boom" else .httpError 503

/-- The outcome of one chat call against the LLM endpoint: the response
text of a completed call, or the message of a raised exception (API
error or any other exception — both are caught, recorded into
`last_error` and retried). -/
inductive LLMAttempt where
  | ok (text : String) : LLMAttempt
  | fail (err : String) : LLMAttempt

/-- Model of `BookAnalysisResult` (src/llm_analyzer.py lines 37–61): attributes set
by `__init__`.  Fields fed from decoded JSON are dynamically typed, hence
`PyVal`; `recommended_keywords` stores `recommended_keywords or []`. -/
structure BookAnalysisResult where
  book_title : String
  is_available : PyVal
  confidence : PyVal
  matched_title : PyVal
  matched_author : PyVal
  reasoning : PyVal
  recommended_keywords : PyVal
  error : Option String

/-- Python `v or []` as applied by `BookAnalysisResult.__init__` to
`recommended_keywords`. -/
def pyOrEmptyList (v : PyVal) : PyVal :=
  if v.truthy then v else .list []

/-- The `BookAnalysisResult` built from a parsed response dict in the
success path of `analyze_search_result` (src/llm_analyzer.py lines
341–349). -/
def buildAnalysisFromDict (bt : String) (d : PyVal) : BookAnalysisResult :=
  { book_title := bt
    is_available := d.get "is_available" (.bool false)
    confidence := d.get "confidence" (.num 0)
    matched_title := d.get "matched_title" .none
    matched_author := d.get "matched_author" .none
    reasoning := d.get "reasoning" .none
    recommended_keywords := pyOrEmptyList (d.get "recommended_keywords" (.list []))
    error := Option.none }

/-- The retry loop of `LLMAnalyzer.analyze_search_result`
(src/llm_analyzer.py lines 274–378): `att k` is the outcome of attempt
`k`, `fuel` the remaining retry budget, `le` the threaded `last_error`.
A raised exception (including the `AttributeError` from calling `.get` on
a non-dict parse result) is caught and retried; exhausting the budget
yields the terminal failure result with `error = last_error`.  The search
result and author arguments only shape the prompt sent to the remote
call, which the oracle subsumes. -/
def analyzeGo (dec : String → Option PyVal) (att : Nat → LLMAttempt)
    (bt : String) : Nat → Nat → Option String → BookAnalysisResult
  | _, 0, le =>
    { book_title := bt, is_available := .bool false, confidence := .num 0,
      matched_title := .none, matched_author := .none,
      reasoning := .str ("LLM分析失败: " ++ pyStrOpt le),
      recommended_keywords := .list [], error := le }
  | k, fuel + 1, le =>
    match att k with
    | .fail e => analyzeGo dec att bt (k + 1) fuel (some e)
    | .ok text =>
      match parseLlmResponse dec text with
      | .dict d => buildAnalysisFromDict bt (.dict d)
      | v => analyzeGo dec att bt (k + 1) fuel (some (noGetAttrMsg v))

/-- Embedding of `LLMAnalyzer.analyze_search_result` with `max_retries` attempts. -/
def analyze_search_result (dec : String → Option PyVal) (att : Nat → LLMAttempt)
    (bt : String) (maxRetries : Nat) : BookAnalysisResult :=
  analyzeGo dec att bt 0 maxRetries Option.none

/-- The error result built by the per-book handler of
`BookFinderApp._analyze_results` (src/main.py lines 184–196). -/
def analyzeStageErrorResult (bt e : String) : BookAnalysisResult :=
  { book_title := bt, is_available := .bool false, confidence := .num 0,
    matched_title := .none, matched_author := .none,
    reasoning := .str ("分析失败: " ++ e),
    recommended_keywords := .list [], error := some e }

/-- Model of `SearchKeywordsResult` (src/llm_analyzer.py lines 64–81): attributes
set by `__init__`. -/
structure SearchKeywordsResult where
  book_title : String
  keywords : List PyVal
  corrected_title : PyVal
  corrected_author : PyVal
  reasoning : PyVal
  error : Option String

/-- Embedding of `LLMAnalyzer._parse_keywords_response` (src/llm_analyzer.py lines
607–638).  When the parse result is not a dict, the `.get` call raises
`AttributeError`, caught by the function's own handler, which returns the
degenerate keyword list `[book_title]` with an error message. -/
def parseKeywordsResponse (dec : String → Option PyVal) (text : String)
    (bt : String) : SearchKeywordsResult :=
  match parseLlmResponse dec text with
  | .dict d =>
    let kwv := (PyVal.dict d).get "keywords" (.list [])
    let keywords : List PyVal :=
      match kwv with
      | .list l => if l.isEmpty then [.str bt] else l
      | _ => [.str bt]
    { book_title := bt, keywords := keywords,
      corrected_title := (PyVal.dict d).get "corrected_title" .none,
      corrected_author := (PyVal.dict d).get "corrected_author" .none,
      reasoning := (PyVal.dict d).get "reasoning" .none,
      error := Option.none }
  | v =>
    { book_title := bt, keywords := [.str bt],
      corrected_title := .none, corrected_author := .none, reasoning := .none,
      error := some ("解析失败: " ++ noGetAttrMsg v) }

/-- The degenerate keyword list built when all retries are exhausted in
`generate_search_keywords` (src/llm_analyzer.py lines 503–513):
`[book_title]`, plus `"{title} {author}"` when `author` is truthy. -/
def defaultGenKeywords (bt : String) (author : Option String) : List PyVal :=
  .str bt :: (match author with
    | some a => if a = "" then [] else [.str (bt ++ " " ++ a)]
    | Option.none => [])

/-- The retry loop of `LLMAnalyzer.generate_search_keywords`
(src/llm_analyzer.py lines 409–513): on a completed call the stripped
response text is parsed by `_parse_keywords_response` (which never
raises) and returned; on a raised exception the loop retries; exhausting
the budget returns the degenerate keyword result with an error
describing the last failure. -/
def generateGo (dec : String → Option PyVal) (att : Nat → LLMAttempt)
    (bt : String) (author : Option String) :
    Nat → Nat → Option String → SearchKeywordsResult
  | _, 0, le =>
    { book_title := bt, keywords := defaultGenKeywords bt author,
      corrected_title := .none, corrected_author := .none, reasoning := .none,
      error := some ("LLM生成失败，使用默认关键词: " ++ pyStrOpt le) }
  | k, fuel + 1, le =>
    match att k with
    | .fail e => generateGo dec att bt author (k + 1) fuel (some e)
    | .ok text => parseKeywordsResponse dec (String.mk (pyStrip text.data)) bt

/-- Embedding of `LLMAnalyzer.generate_search_keywords` with `max_retries` attempts. -/
def generate_search_keywords (dec : String → Option PyVal)
    (att : Nat → LLMAttempt) (bt : String) (author : Option String)
    (maxRetries : Nat) : SearchKeywordsResult :=
  generateGo dec att bt author 0 maxRetries Option.none

/-- The attributes of `notion_client.Book` read by the orchestrator
(src/notion_client.py lines 13–38; the remaining attributes are never
read by the functions modelled here). -/
structure Book where
  page_id : String
  title : String
  author : Option String

/-- Python truthiness of an optional string (`if result.error:`). -/
def pyTruthyOptStr : Option String → Bool
  | Option.none => false
  | some s => s ≠ ""

/-- The `failed_books` list built by `BookFinderApp._send_notification`
(src/main.py lines 265–272): the (title, error) pairs of the zipped
(book, verdict) sequence whose verdict has a truthy `error`. -/
def failedBooks (books : List Book) (results : List BookAnalysisResult) :
    List (String × Option String) :=
  ((books.zip results).filter (fun p => pyTruthyOptStr p.2.error)).map
    (fun p => (p.1.title, p.2.error))

/-- The parameter names of `WeReadSearchResult.__init__`
(src/weread_api.py lines 17–24), besides `self`. -/
def weReadSearchResultInitParams : List String :=
  ["book_title", "search_keyword", "found_books", "total_count", "error"]

/-- The attribute names set on a `WeReadSearchResult` instance by its
`__init__` (src/weread_api.py lines 25–33). -/
def weReadSearchResultAttrs : List String :=
  ["book_title", "search_keyword", "found_books", "total_count", "error",
   "has_results", "html_content", "page_url"]

/-- The keyword-argument names passed to `WeReadSearchResult(...)` by the
per-book exception handler of `BookFinderApp._search_books_sync`
(src/main.py lines 142–150). -/
def searchHandlerKwargs : List String :=
  ["book_title", "search_keyword", "found_books", "error", "attempted_keywords"]

/-- The keyword arguments of a call that the callee's parameter list does
not accept (passing any such argument raises `TypeError` in Python). -/
def unexpectedKwargs (params kwargs : List String) : List String :=
  kwargs.filter (fun k => ¬ params.contains k)

/-- The per-book exception handler of `_search_books_sync`: it attempts
`WeReadSearchResult(book_title=.., search_keyword=.., found_books=[],
error=str(e), attempted_keywords=[book.title])`.  Python checks the
keyword arguments against `__init__`'s parameter list; an unexpected one
raises `TypeError` out of the handler. -/
def searchHandlerBuildErrorResult (bt e : String) :
    Except String WeReadSearchResult :=
  match unexpectedKwargs weReadSearchResultInitParams searchHandlerKwargs with
  | [] =>
    .ok { book_title := bt, search_keyword := bt, found_books := [],
          total_count := 0, error := some e }
  | bad :: _ =>
    .error ("TypeError: __init__() got an unexpected keyword argument '" ++
      bad ++ "'")

/-- The outcome of the search stage (keyword generation plus endpoint
search) for one book inside the `try` of `_search_books_sync`: a result,
or a raised exception. -/
inductive StageOutcome where
  | ok (r : WeReadSearchResult) : StageOutcome
  | raises (e : String) : StageOutcome

/-- The per-book loop of `BookFinderApp._search_books_sync` (src/main.py
lines 108–157): each stage outcome either appends its result, or enters
the handler, whose own construction may raise and abort the whole batch. -/
def searchBooksSync : List (String × StageOutcome) →
    Except String (List WeReadSearchResult)
  | [] => .ok []
  | (_, .ok r) :: rest =>
    match searchBooksSync rest with
    | .ok rs => .ok (r :: rs)
    | .error e => .error e
  | (bt, .raises e) :: rest =>
    match searchHandlerBuildErrorResult bt e with
    | .ok r =>
      match searchBooksSync rest with
      | .ok rs => .ok (r :: rs)
      | .error e2 => .error e2
    | .error te => .error te

/-- The attribute read `search_result.attempted_keywords` performed by
`BookFinderApp._update_notion` (src/main.py line 222), modelled by a
lookup in the attribute set `__init__` establishes: a missing attribute
raises `AttributeError`. -/
def updateNotionReadAttemptedKeywords (_ : WeReadSearchResult) :
    Except String (List String) :=
  if weReadSearchResultAttrs.contains "attempted_keywords" then .ok []
  else
    .error
      "AttributeError: 'WeReadSearchResult' object has no attribute 'attempted_keywords'"

/-- A decoder that decodes nothing (models `json.loads` raising on every
probed string). -/
def decNone : String → Option PyVal := fun _ => Option.none

/-- An LLM oracle whose every attempt raises. -/
def failAtt : Nat → LLMAttempt := fun _ => .fail "x"

/-- Whether a decoded `keywords` entry survives the guard
`if not keywords or not isinstance(keywords, list)` of
`_parse_keywords_response`. -/
def keywordsUsable : PyVal → Bool
  | .list l => ¬ l.isEmpty
  | _ => false

/-- The `last_error` left by an all-failing run of `fuel` attempts
starting at attempt `k` (`le` when no attempt was made). -/
def lastFailErr (errs : Nat → String) (k : Nat) (le : Option String) :
    Nat → Option String
  | 0 => le
  | f + 1 => some (errs (k + f))

/-- An LLM oracle whose every attempt raises a rate-limit error. -/
def genFailAtt : Nat → LLMAttempt := fun _ => .fail "rate limit"

/-- An LLM oracle that always answers with unparseable text. -/
def genOkAtt : Nat → LLMAttempt := fun _ => .ok "junk"

/-- A decoder behaving as `json.loads` would on the probed string `"K"`:
it decodes to an object whose `keywords` entry has six strings. -/
def dec6 : String → Option PyVal :=
  fun s =>
    if s = "K" then
      some (.dict [("keywords",
        .list [.str "a", .str "b", .str "c", .str "d", .str "e", .str "f"])])
    else Option.none

/-- An LLM oracle answering the text `"K"` on every attempt. -/
def okK : Nat → LLMAttempt := fun _ => .ok "K"

/-- An LLM oracle answering unparseable text on every attempt. -/
def okJunk : Nat → LLMAttempt := fun _ => .ok "junk"

/-- A concrete book record for the C10 witness. -/
def witnessBookRec : Book :=
  { page_id := "p1", title := "b", author := Option.none }

/-- C3: the AvailabilityState derivation is a pure, total, deterministic
function of the two status flags: `Readable` iff `bookStatus = 1 ∧
soldout = 0`; `PendingRelease` iff `bookStatus = 5 ∨ soldout = 1`;
`Unknown` otherwise; every record maps to exactly one state and equal
flag pairs always yield the same state. -/
theorem availabilityState_characterization
    (bookStatus : Option Int) (soldout : Int) :
    (availabilityState bookStatus soldout = .Readable ↔
      bookStatus = some 1 ∧ soldout = 0) ∧
    (availabilityState bookStatus soldout = .PendingRelease ↔
      (bookStatus = some 5 ∨ soldout = 1)) ∧
    (availabilityState bookStatus soldout = .Unknown ↔
      ¬ (bookStatus = some 1 ∧ soldout = 0) ∧
      ¬ (bookStatus = some 5 ∨ soldout = 1)) ∧
    (∀ b' s', bookStatus = b' → soldout = s' →
      availabilityState bookStatus soldout = availabilityState b' s') := by
  refine ⟨?_, ?_, ?_, ?_⟩
  · constructor
    · intro h
      by_contra hc
      unfold availabilityState at h
      rw [if_neg hc] at h
      by_cases h5 : bookStatus = some 5 ∨ soldout = 1
      · rw [if_pos h5] at h; exact AvailabilityState.noConfusion h
      · rw [if_neg h5] at h; exact AvailabilityState.noConfusion h
    · intro h
      unfold availabilityState
      rw [if_pos h]
  · constructor
    · intro h
      by_contra hc
      unfold availabilityState at h
      by_cases h1 : bookStatus = some 1 ∧ soldout = 0
      · rw [if_pos h1] at h; exact AvailabilityState.noConfusion h
      · rw [if_neg h1, if_neg hc] at h; exact AvailabilityState.noConfusion h
    · intro h
      have h1 : ¬ (bookStatus = some 1 ∧ soldout = 0) := by
        rintro ⟨hb, hs⟩
        rcases h with h5 | hs1
        · rw [hb] at h5; exact Option.noConfusion h5 (by omega)
        · omega
      unfold availabilityState
      rw [if_neg h1, if_pos h]
  · constructor
    · intro h
      unfold availabilityState at h
      by_cases h1 : bookStatus = some 1 ∧ soldout = 0
      · rw [if_pos h1] at h; exact absurd h (by simp)
      · by_cases h5 : bookStatus = some 5 ∨ soldout = 1
        · rw [if_neg h1, if_pos h5] at h; exact absurd h (by simp)
        · exact ⟨h1, h5⟩
    · rintro ⟨h1, h5⟩
      unfold availabilityState
      rw [if_neg h1, if_neg h5]
  · rintro b' s' rfl rfl; rfl

/-- Equality of `_parse_llm_response` with the offset-based fallback chain, for every
decoder and every input text. -/
theorem parseLlmResponse_eq_chain (dec : String → Option PyVal) (text : String) :
    parseLlmResponse dec text = fallbackChainByOffsets dec text := by
  unfold parseLlmResponse fallbackChainByOffsets strictLayer fencedLayerByOffsets braceSpanLayer
  rcases h1 : dec text with _ | v1
  · rcases h2 : (if pyFind text.data fenceOpen 0 ≥ 0 then
        dec (String.mk (pyStrip (pySlice text.data ((pyFind text.data fenceOpen 0).toNat + 7)
          (pyFind text.data fenceMarker ((pyFind text.data fenceOpen 0).toNat + 7)))))
      else Option.none) with _ | v2
    · simp only [h2, Option.orElse, Option.getD]
      by_cases hb : pyFind text.data [braceOpen] 0 ≥ 0 ∧
          pyRFindChar text.data braceClose + 1 > pyFind text.data [braceOpen] 0
      · rw [if_pos hb, if_pos hb]
        rcases h3 : dec (String.mk (pySlice text.data (pyFind text.data [braceOpen] 0).toNat
            (pyRFindChar text.data braceClose + 1))) with _ | v3 <;> rfl
      · rw [if_neg hb, if_neg hb]
    · simp only [h2, Option.orElse, Option.getD]
  · rfl

/-- C8 counterexample: on the text `"```json[1]X"` (an unclosed fenced
block) with a decoder that behaves as `json.loads` does on the probed
strings, `_parse_llm_response` returns the list decoded from the sliced
fence contents, while the chain worded by the spec (strict parse →
closed-fenced-block parse → brace-span parse → default object) returns the
default object: the code does not follow the spec's chain on this input. -/
theorem parseLlmResponse_spec_chain_counterexample :
    parseLlmResponse decProbe "```json[1]X" = PyVal.list [PyVal.num 1] ∧
    specFallbackChain decProbe "```json[1]X" = defaultAnalysisObj ∧
    parseLlmResponse decProbe "```json[1]X" ≠
      specFallbackChain decProbe "```json[1]X" := by
  have h1 : parseLlmResponse decProbe "```json[1]X" = PyVal.list [PyVal.num 1] := rfl
  have h2 : specFallbackChain decProbe "```json[1]X" = defaultAnalysisObj := rfl
  refine ⟨h1, h2, ?_⟩
  rw [h1, h2]
  unfold defaultAnalysisObj
  intro h
  exact PyVal.noConfusion h

/-- C8 amended: for every decoder and every response text,
`_parse_llm_response` is a total function (it never raises) and equals the
fallback chain strict parse → fenced parse → brace-span parse → default
object, where the fenced layer is computed by string offsets (from just
after the first ```json marker to the next ``` marker, or to the end of
the text excluding its final character when no closing marker exists,
stripped of whitespace) and the brace layer parses the span from the
first opening brace to the last closing brace. -/
theorem parseLlmResponse_follows_offset_chain
    (dec : String → Option PyVal) (text : String) :
    parseLlmResponse dec text = fallbackChainByOffsets dec text :=
  parseLlmResponse_eq_chain dec text

lemma getLast?_cons_of_ne_nil {α : Type} (a : α) {l : List α} (h : l ≠ []) :
    (a :: l).getLast? = l.getLast? := by
  cases l with
  | nil => exact absurd rfl h
  | cons b t => rfl

lemma chainErr_append (t1 t2 : List ApiAttempt) (le : Option String) :
    chainErr le (t1 ++ t2) = chainErr (chainErr le t1) t2 := by
  induction t1 generalizing le with
  | nil => rfl
  | cons a t ih => simp [chainErr, ih]

lemma chainErr_all_none (tr : List ApiAttempt) (le : Option String)
    (h : ∀ a ∈ tr, a.errOf = Option.none) : chainErr le tr = le := by
  induction tr generalizing le with
  | nil => rfl
  | cons a t ih =>
    have ha := h a (List.mem_cons_self a t)
    simp only [chainErr, ha]
    exact ih le (fun x hx => h x (List.mem_cons_of_mem a hx))

/-- The `last_error` value returned by the per-keyword retry loop is the
last error recorded along its attempt trace. -/
lemma tryKeyword_lastErr (resp : Nat → ApiAttempt) :
    ∀ (fuel idx : Nat) (le : Option String),
      (tryKeyword resp idx fuel le).2.1 =
        chainErr le (tryKeyword resp idx fuel le).2.2 := by
  intro fuel
  induction fuel with
  | zero => intro idx le; rfl
  | succ f ih =>
    intro idx le
    cases h : resp idx with
    | success books total =>
      cases books with
      | nil => simp [tryKeyword, h, chainErr, ApiAttempt.errOf]
      | cons b bs => simp [tryKeyword, h, chainErr, ApiAttempt.errOf]
    | httpError s =>
      simp [tryKeyword, h, chainErr, ApiAttempt.errOf, ih]
    | netError m =>
      simp [tryKeyword, h, chainErr, ApiAttempt.errOf, ih]

/-- If, for every attempt of the retry budget, the first successful
attempt (if any) carries an empty record list, the retry loop finds
nothing. -/
lemma tryKeyword_none (resp : Nat → ApiAttempt) :
    ∀ (fuel idx : Nat) (le : Option String),
      (∀ j, j < fuel → (∀ j', j' < j → ((resp (idx + j')).errOf).isSome) →
        ∀ bs t, resp (idx + j) = .success bs t → bs = []) →
      (tryKeyword resp idx fuel le).1 = Option.none := by
  intro fuel
  induction fuel with
  | zero => intro idx le _; rfl
  | succ f ih =>
    intro idx le hno
    cases h : resp idx with
    | success books total =>
      have hb : books = [] := by
        refine hno 0 (Nat.succ_pos f) (by intro j' hj'; omega) books total ?_
        simpa using h
      subst hb
      simp [tryKeyword, h]
    | httpError s =>
      have hshift : ∀ j, j < f →
          (∀ j', j' < j → ((resp (idx + 1 + j')).errOf).isSome) →
          ∀ bs t, resp (idx + 1 + j) = .success bs t → bs = [] := by
        intro j hj hprev bs t hsucc
        have h1 : ∀ j', j' < j + 1 → ((resp (idx + j')).errOf).isSome := by
          intro j' hj'
          cases j' with
          | zero =>
            have hidx : idx + 0 = idx := rfl
            rw [hidx, h]; simp [ApiAttempt.errOf]
          | succ j'' =>
            have := hprev j'' (by omega)
            have e : idx + 1 + j'' = idx + (j'' + 1) := by omega
            rwa [e] at this
        have e : idx + 1 + j = idx + (j + 1) := by omega
        rw [e] at hsucc
        exact hno (j + 1) (by omega) h1 bs t hsucc
      simp only [tryKeyword, h]
      exact ih (idx + 1) _ hshift
    | netError m =>
      have hshift : ∀ j, j < f →
          (∀ j', j' < j → ((resp (idx + 1 + j')).errOf).isSome) →
          ∀ bs t, resp (idx + 1 + j) = .success bs t → bs = [] := by
        intro j hj hprev bs t hsucc
        have h1 : ∀ j', j' < j + 1 → ((resp (idx + j')).errOf).isSome := by
          intro j' hj'
          cases j' with
          | zero =>
            have hidx : idx + 0 = idx := rfl
            rw [hidx, h]; simp [ApiAttempt.errOf]
          | succ j'' =>
            have := hprev j'' (by omega)
            have e : idx + 1 + j'' = idx + (j'' + 1) := by omega
            rwa [e] at this
        have e : idx + 1 + j = idx + (j + 1) := by omega
        rw [e] at hsucc
        exact hno (j + 1) (by omega) h1 bs t hsucc
      simp only [tryKeyword, h]
      exact ih (idx + 1) _ hshift

/-- If attempt `j` is the first successful attempt of a keyword's retry
loop (every earlier attempt is transient) and it lies within the retry
budget, the loop stops right there: the result carries the first ten
normalized records of that response (`none` when the response is empty)
and exactly `j + 1` endpoint calls were made. -/
lemma tryKeyword_firstSuccess (resp : Nat → ApiAttempt) :
    ∀ (j fuel idx : Nat) (le : Option String) (books : List RawBookInfo)
      (total : Nat),
      j < fuel →
      resp (idx + j) = .success books total →
      (∀ j', j' < j → ((resp (idx + j')).errOf).isSome) →
      (tryKeyword resp idx fuel le).1 =
        (if books.isEmpty then Option.none
         else some ((books.take 10).map normalizeBookInfo, total)) ∧
      (tryKeyword resp idx fuel le).2.2.length = j + 1 := by
  intro j
  induction j with
  | zero =>
    intro fuel idx le books total hj hs _
    obtain ⟨f, rfl⟩ : ∃ f, fuel = f + 1 := ⟨fuel - 1, by omega⟩
    have hs' : resp idx = .success books total := by simpa using hs
    cases books with
    | nil => constructor <;> simp [tryKeyword, hs', List.isEmpty]
    | cons b bs =>
      have hfb : ¬ (((b :: bs).take 10).map normalizeBookInfo).isEmpty := by
        simp
      constructor <;> simp [tryKeyword, hs', hfb]
  | succ j ih =>
    intro fuel idx le books total hj hs ht
    obtain ⟨f, rfl⟩ : ∃ f, fuel = f + 1 := ⟨fuel - 1, by omega⟩
    have h0 : ((resp idx).errOf).isSome := by
      have := ht 0 (by omega)
      simpa using this
    have hshift : ∀ j', j' < j → ((resp (idx + 1 + j')).errOf).isSome := by
      intro j' hj'
      have := ht (j' + 1) (by omega)
      have e : idx + (j' + 1) = idx + 1 + j' := by omega
      rwa [e] at this
    have hs2 : resp (idx + 1 + j) = .success books total := by
      have e : idx + (j + 1) = idx + 1 + j := by omega
      rwa [e] at hs
    cases h : resp idx with
    | success b t => rw [h] at h0; simp [ApiAttempt.errOf] at h0
    | httpError s =>
      have := ih f (idx + 1) (some ("HTTP " ++ toString s)) books total
        (by omega) hs2 hshift
      constructor <;> simp [tryKeyword, h, this.1, this.2]
    | netError m =>
      have := ih f (idx + 1) (some m) books total (by omega) hs2 hshift
      constructor <;> simp [tryKeyword, h, this.1, this.2]

/-- When no keyword's retry loop produces a non-empty candidate list, the
keyword loop finds nothing and its final `last_error` is the last error
recorded along the full attempt trace. -/
lemma searchLoop_nonfind (oracle : Nat → Nat → ApiAttempt) (mr : Nat) :
    ∀ (kws : List String) (b : Nat) (le : Option String),
      (∀ i, i < kws.length → ∀ j, j < mr →
        (∀ j', j' < j → ((oracle (b + i) j').errOf).isSome) →
        ∀ bs t, oracle (b + i) j = .success bs t → bs = []) →
      (searchLoop oracle mr kws b le).1 = Option.none ∧
      (searchLoop oracle mr kws b le).2.1 =
        chainErr le (searchLoop oracle mr kws b le).2.2.1 := by
  intro kws
  induction kws with
  | nil => intro b le _; exact ⟨rfl, rfl⟩
  | cons k rest ih =>
    intro b le hno
    have h0 : (tryKeyword (oracle b) 0 mr le).1 = Option.none := by
      apply tryKeyword_none
      intro j hj hprev bs t hs
      refine hno 0 (by simp) j hj ?_ bs t ?_
      · intro j' hj'
        have := hprev j' hj'
        rwa [Nat.zero_add] at this
      · rwa [Nat.zero_add] at hs
    have hshift : ∀ i, i < rest.length → ∀ j, j < mr →
        (∀ j', j' < j → ((oracle (b + 1 + i) j').errOf).isSome) →
        ∀ bs t, oracle (b + 1 + i) j = .success bs t → bs = [] := by
      intro i hi j hj hpre bs t hs
      have e : b + 1 + i = b + (i + 1) := by omega
      rw [e] at hpre hs
      exact hno (i + 1) (by simp; omega) j hj hpre bs t hs
    obtain ⟨ihn, ihe⟩ := ih (b + 1) (tryKeyword (oracle b) 0 mr le).2.1 hshift
    have ht1 := tryKeyword_lastErr (oracle b) mr 0 le
    constructor
    · simp only [searchLoop, h0]
      exact ihn
    · simp only [searchLoop, h0]
      rw [chainErr_append, ← ht1]
      exact ihe

/-- Short-circuit behaviour of the keyword loop: when keyword `i` is the
first whose retry loop reaches a non-empty successful response (at its
attempt `j`, every earlier attempt of keyword `i` being transient and
every earlier keyword finding nothing), the loop returns that keyword with
the first ten normalized records of that response, exactly keywords
`0..i` are queried, the returning keyword is queried exactly `j + 1`
times, and any earlier keyword whose first success was empty was queried
exactly up to that success. -/
lemma searchLoop_found (oracle : Nat → Nat → ApiAttempt) (mr : Nat) :
    ∀ (kws : List String) (b : Nat) (le : Option String) (i : Nat)
      (hi : i < kws.length) (j : Nat) (books : List RawBookInfo) (total : Nat),
      j < mr →
      oracle (b + i) j = .success books total →
      books ≠ [] →
      (∀ j', j' < j → ((oracle (b + i) j').errOf).isSome) →
      (∀ i', i' < i → ∀ j', j' < mr →
        (∀ j'', j'' < j' → ((oracle (b + i') j'').errOf).isSome) →
        ∀ bs t, oracle (b + i') j' = .success bs t → bs = []) →
      (searchLoop oracle mr kws b le).1 =
        some (kws.get ⟨i, hi⟩, (books.take 10).map normalizeBookInfo, total) ∧
      (searchLoop oracle mr kws b le).2.2.2.length = i + 1 ∧
      (searchLoop oracle mr kws b le).2.2.2.getLast? = some (j + 1) ∧
      (∀ i', i' < i → ∀ j', j' < mr →
        (∀ j'', j'' < j' → ((oracle (b + i') j'').errOf).isSome) →
        ∀ t, oracle (b + i') j' = .success [] t →
        (searchLoop oracle mr kws b le).2.2.2[i']? = some (j' + 1)) := by
  intro kws
  induction kws with
  | nil => intro b le i hi; simp at hi
  | cons k rest ih =>
    intro b le i hi j books total hj hs hb ht hprev
    cases i with
    | zero =>
      have hs0 : oracle b (0 + j) = .success books total := by
        rwa [Nat.zero_add]
      have ht0 : ∀ j', j' < j → ((oracle b (0 + j')).errOf).isSome := by
        intro j' hj'
        rw [Nat.zero_add]
        exact ht j' hj'
      have hfk := tryKeyword_firstSuccess (oracle b) j mr 0 le books total hj hs0 ht0
      have hbe : books.isEmpty = false := by
        cases books with
        | nil => exact absurd rfl hb
        | cons x xs => rfl
      have h1 : (tryKeyword (oracle b) 0 mr le).1 =
          some ((books.take 10).map normalizeBookInfo, total) := by
        rw [hfk.1, hbe]
        rfl
      refine ⟨?_, ?_, ?_, ?_⟩
      · simp only [searchLoop, h1]
        rfl
      · simp only [searchLoop, h1]
        rfl
      · simp only [searchLoop, h1]
        simp [hfk.2]
      · intro i' hi'
        omega
    | succ i0 =>
      have h0 : (tryKeyword (oracle b) 0 mr le).1 = Option.none := by
        apply tryKeyword_none
        intro j' hj' hpre bs t hsx
        refine hprev 0 (by omega) j' hj' ?_ bs t ?_
        · intro j'' hj''
          have := hpre j'' hj''
          rwa [Nat.zero_add] at this
        · rwa [Nat.zero_add] at hsx
      have hi0 : i0 < rest.length := by
        simpa using hi
      have hs1 : oracle (b + 1 + i0) j = .success books total := by
        have e : b + 1 + i0 = b + (i0 + 1) := by omega
        rw [e]
        exact hs
      have ht1 : ∀ j', j' < j → ((oracle (b + 1 + i0) j').errOf).isSome := by
        intro j' hj'
        have e : b + 1 + i0 = b + (i0 + 1) := by omega
        rw [e]
        exact ht j' hj'
      have hprev1 : ∀ i', i' < i0 → ∀ j', j' < mr →
          (∀ j'', j'' < j' → ((oracle (b + 1 + i') j'').errOf).isSome) →
          ∀ bs t, oracle (b + 1 + i') j' = .success bs t → bs = [] := by
        intro i' hi' j' hj' hpre bs t hsx
        have e : b + 1 + i' = b + (i' + 1) := by omega
        rw [e] at hpre hsx
        exact hprev (i' + 1) (by omega) j' hj' hpre bs t hsx
      obtain ⟨ih1, ih2, ih3, ih4⟩ :=
        ih (b + 1) (tryKeyword (oracle b) 0 mr le).2.1 i0 hi0 j books total
          hj hs1 hb ht1 hprev1
      have hlogne : (searchLoop oracle mr rest (b + 1)
          (tryKeyword (oracle b) 0 mr le).2.1).2.2.2 ≠ [] := by
        intro hn
        rw [hn] at ih2
        simp at ih2
      refine ⟨?_, ?_, ?_, ?_⟩
      · simp only [searchLoop, h0]
        exact ih1
      · simp only [searchLoop, h0, List.length_cons]
        omega
      · simp only [searchLoop, h0]
        rw [getLast?_cons_of_ne_nil _ hlogne]
        exact ih3
      · intro i' hi' j' hj' hpre t hsx
        cases i' with
        | zero =>
          have hsz : oracle b (0 + j') = ApiAttempt.success ([] : List RawBookInfo) t := by
            rw [Nat.zero_add]
            exact hsx
          have htz : ∀ j'', j'' < j' → ((oracle b (0 + j'')).errOf).isSome := by
            intro j'' hj''
            rw [Nat.zero_add]
            exact hpre j'' hj''
          have hek := tryKeyword_firstSuccess (oracle b) j' mr 0 le
            ([] : List RawBookInfo) t hj' hsz htz
          simp only [searchLoop, h0]
          simp [hek.2]
        | succ i'' =>
          have e : b + 1 + i'' = b + (i'' + 1) := by omega
          have hpre' : ∀ j'', j'' < j' → ((oracle (b + 1 + i'') j'').errOf).isSome := by
            intro j'' hj''
            rw [e]
            exact hpre j'' hj''
          have hsx' : oracle (b + 1 + i'') j' = .success [] t := by
            rw [e]
            exact hsx
          have := ih4 i'' (by omega) j' hj' hpre' t hsx'
          simp only [searchLoop, h0]
          simpa using this

/-- C5: if keyword `i` is the first whose successful (HTTP 200, parseable)
response yields at least one normalized candidate — attempt `j` of that
keyword, all earlier attempts of it transient, no earlier keyword reaching
a non-empty success — then `search_book` returns immediately with that
keyword and its candidates capped at 10 entries in provider order, no
keyword after position `i` is ever sent to the endpoint (exactly `i + 1`
keywords are queried), the returning keyword is queried exactly `j + 1`
times, and any earlier keyword whose successful response had zero
candidates was not retried after that response. -/
theorem search_book_short_circuit
    (oracle : Nat → Nat → ApiAttempt) (mr : Nat) (bt : String)
    (author : Option String) (l : List String) (i j : Nat)
    (books : List RawBookInfo) (total : Nat)
    (hl : l ≠ [])
    (hi : i < l.length)
    (hj : j < mr)
    (hs : oracle i j = .success books total)
    (hb : books ≠ [])
    (ht : ∀ j', j' < j → ((oracle i j').errOf).isSome)
    (hprev : ∀ i', i' < i → ∀ j', j' < mr →
      (∀ j'', j'' < j' → ((oracle i' j'').errOf).isSome) →
      ∀ bs t, oracle i' j' = .success bs t → bs = []) :
    (search_book oracle mr bt author (some l)).search_keyword = l.get ⟨i, hi⟩ ∧
    (search_book oracle mr bt author (some l)).found_books =
      (books.take 10).map normalizeBookInfo ∧
    (search_book oracle mr bt author (some l)).found_books.length ≤ 10 ∧
    (search_book oracle mr bt author (some l)).total_count = total ∧
    (search_book oracle mr bt author (some l)).error = Option.none ∧
    (search_book_traced oracle mr bt author (some l)).2.2.length = i + 1 ∧
    (search_book_traced oracle mr bt author (some l)).2.2.getLast? = some (j + 1) ∧
    (∀ i', i' < i → ∀ j', j' < mr →
      (∀ j'', j'' < j' → ((oracle i' j'').errOf).isSome) →
      ∀ t, oracle i' j' = .success [] t →
      (search_book_traced oracle mr bt author (some l)).2.2[i']? = some (j' + 1)) := by
  have hke : searchKeywordsOf bt author (some l) = l := by
    have : l.isEmpty = false := by
      cases l with
      | nil => exact absurd rfl hl
      | cons x xs => rfl
    simp [searchKeywordsOf, this]
  have hs' : oracle (0 + i) j = .success books total := by rwa [Nat.zero_add]
  have ht' : ∀ j', j' < j → ((oracle (0 + i) j').errOf).isSome := by
    intro j' hj'; rw [Nat.zero_add]; exact ht j' hj'
  have hprev' : ∀ i', i' < i → ∀ j', j' < mr →
      (∀ j'', j'' < j' → ((oracle (0 + i') j'').errOf).isSome) →
      ∀ bs t, oracle (0 + i') j' = .success bs t → bs = [] := by
    intro i' hi' j' hj' hpre bs t hsx
    rw [Nat.zero_add] at hpre hsx
    exact hprev i' hi' j' hj' hpre bs t hsx
  obtain ⟨h1, h2, h3, h4⟩ :=
    searchLoop_found oracle mr l 0 Option.none i hi j books total hj hs' hb ht' hprev'
  have hlen10 : ((books.take 10).map normalizeBookInfo).length ≤ 10 := by
    rw [List.length_map]
    exact le_trans (List.length_take_le 10 books) (le_refl 10)
  refine ⟨?_, ?_, ?_, ?_, ?_, ?_, ?_, ?_⟩
  · simp only [search_book, search_book_traced, hke, h1]
  · simp only [search_book, search_book_traced, hke, h1]
  · simp only [search_book, search_book_traced, hke, h1]
    exact hlen10
  · simp only [search_book, search_book_traced, hke, h1]
  · simp only [search_book, search_book_traced, hke, h1]
  · simp only [search_book_traced, hke, h1]
    exact h2
  · simp only [search_book_traced, hke, h1]
    exact h3
  · intro i' hi' j' hj' hpre t hsx
    have hpre' : ∀ j'', j'' < j' → ((oracle (0 + i') j'').errOf).isSome := by
      intro j'' hj''; rw [Nat.zero_add]; exact hpre j'' hj''
    have hsx' : oracle (0 + i') j' = .success [] t := by rwa [Nat.zero_add]
    have := h4 i' hi' j' hj' hpre' t hsx'
    simp only [search_book_traced, hke, h1]
    exact this

theorem search_book_short_circuit_witness :
    (["A", "B"] : List String) ≠ [] ∧
    witnessOracle 1 1 = .success [witnessBook] 3 ∧
    (search_book witnessOracle 2 "t" Option.none (some ["A", "B"])).search_keyword = "B" ∧
    (search_book witnessOracle 2 "t" Option.none (some ["A", "B"])).found_books =
      [normalizeBookInfo witnessBook] ∧
    (search_book witnessOracle 2 "t" Option.none (some ["A", "B"])).error = Option.none ∧
    (search_book_traced witnessOracle 2 "t" Option.none (some ["A", "B"])).2.2.length = 2 ∧
    (search_book_traced witnessOracle 2 "t" Option.none (some ["A", "B"])).2.2.getLast? =
      some 2 := by
  have hprev : ∀ i', i' < 1 → ∀ j', j' < 2 →
      (∀ j'', j'' < j' → ((witnessOracle i' j'').errOf).isSome) →
      ∀ bs t, witnessOracle i' j' = .success bs t → bs = [] := by
    intro i' hi' j' _ _ bs t hsx
    have hz : i' = 0 := by omega
    subst hz
    simp only [witnessOracle, if_pos rfl] at hsx
    injection hsx with h1 _
    exact h1.symm
  have h := search_book_short_circuit witnessOracle 2 "t" Option.none ["A", "B"] 1 1
    [witnessBook] 3 (by decide) (by decide) (by decide) rfl
    (by intro hx; exact List.noConfusion hx)
    (by intro j' hj'
        have hz : j' = 0 := by omega
        subst hz
        decide)
    hprev
  exact ⟨by decide, rfl, h.1.trans rfl, by simpa using h.2.1, h.2.2.2.2.1,
    h.2.2.2.2.2.1, h.2.2.2.2.2.2.1⟩

/-- C6: when every keyword is exhausted without a non-empty candidate list
(every successful attempt carried zero records), `search_book` returns an
empty candidate list with `search_keyword` equal to the first attempted
keyword, and `error` equal to the last recorded transient failure along
the whole attempt trace — or the fixed "no results" message when every
attempt succeeded (Python `or` also replaces an empty failure message by
the default). -/
theorem search_book_exhausted
    (oracle : Nat → Nat → ApiAttempt) (mr : Nat) (bt : String)
    (author : Option String) (l : List String)
    (hl : l ≠ [])
    (hnone : ∀ i, i < l.length → ∀ j, j < mr →
      (∀ j', j' < j → ((oracle i j').errOf).isSome) →
      ∀ bs t, oracle i j = .success bs t → bs = []) :
    (search_book oracle mr bt author (some l)).found_books = [] ∧
    (search_book oracle mr bt author (some l)).search_keyword = l.headD "" ∧
    (search_book oracle mr bt author (some l)).error =
      some (pyOrStr
        (chainErr Option.none (search_book_traced oracle mr bt author (some l)).2.1)
        "未找到搜索结果") ∧
    (∀ e, chainErr Option.none
        (search_book_traced oracle mr bt author (some l)).2.1 = some e → e ≠ "" →
      (search_book oracle mr bt author (some l)).error = some e) ∧
    ((∀ a ∈ (search_book_traced oracle mr bt author (some l)).2.1,
        a.errOf = Option.none) →
      (search_book oracle mr bt author (some l)).error = some "未找到搜索结果") ∧
    (search_book oracle mr bt author (some l)).has_results = false := by
  have hke : searchKeywordsOf bt author (some l) = l := by
    have : l.isEmpty = false := by
      cases l with
      | nil => exact absurd rfl hl
      | cons x xs => rfl
    simp [searchKeywordsOf, this]
  have hnone' : ∀ i, i < l.length → ∀ j, j < mr →
      (∀ j', j' < j → ((oracle (0 + i) j').errOf).isSome) →
      ∀ bs t, oracle (0 + i) j = .success bs t → bs = [] := by
    intro i hi j hj hpre bs t hsx
    rw [Nat.zero_add] at hpre hsx
    exact hnone i hi j hj hpre bs t hsx
  obtain ⟨hn, he⟩ := searchLoop_nonfind oracle mr l 0 Option.none hnone'
  refine ⟨?_, ?_, ?_, ?_, ?_, ?_⟩
  · simp only [search_book, search_book_traced, hke, hn]
  · simp only [search_book, search_book_traced, hke, hn]
  · simp only [search_book, search_book_traced, hke, hn, he]
  · intro e hce hne
    simp only [search_book, search_book_traced, hke, hn, he]
    simp only [search_book_traced, hke, hn] at hce
    rw [hce]
    simp [pyOrStr, hne]
  · intro hall
    simp only [search_book_traced, hke, hn] at hall
    have : chainErr Option.none
        (searchLoop oracle mr l 0 Option.none).2.2.1 = Option.none :=
      chainErr_all_none _ _ hall
    simp only [search_book, search_book_traced, hke, hn, he, this]
    rfl
  · simp only [search_book, search_book_traced, hke, hn, WeReadSearchResult.has_results]
    rfl

theorem search_book_exhausted_witness :
    (["A", "B"] : List String) ≠ [] ∧
    (search_book exhaustedOracle 2 "t" Option.none (some ["A", "B"])).found_books = [] ∧
    (search_book exhaustedOracle 2 "t" Option.none (some ["A", "B"])).search_keyword = "A" ∧
    (search_book exhaustedOracle 2 "t" Option.none (some ["A", "B"])).error =
      some "HTTP 503" ∧
    (search_book exhaustedOracle 2 "t" Option.none (some ["A", "B"])).has_results =
      false := by
  have h := search_book_exhausted exhaustedOracle 2 "t" Option.none ["A", "B"]
    (by intro hx; exact List.noConfusion hx)
    (by intro i _ j _ _ bs t hsx
        by_cases hz : i = 0
        · subst hz
          simp only [exhaustedOracle, if_pos rfl] at hsx
          exact ApiAttempt.noConfusion hsx
        · simp only [exhaustedOracle, if_neg hz] at hsx
          exact ApiAttempt.noConfusion hsx)
  refine ⟨by decide, h.1, h.2.1.trans rfl, ?_, h.2.2.2.2.2⟩
  have := h.2.2.1
  rw [this]
  rfl

/-- C1 (code evaluated at the failing input): the per-book exception
handler of `_search_books_sync` passes the keyword argument
`attempted_keywords`, which `WeReadSearchResult.__init__` does not
accept; on a batch of two books whose first book's search stage raises,
the handler itself raises `TypeError` and the whole batch aborts instead
of producing a per-book error result and processing book two. -/
theorem searchBooksSync_aborts_on_stage_exception :
    unexpectedKwargs weReadSearchResultInitParams searchHandlerKwargs =
      ["attempted_keywords"] ∧
    searchBooksSync
      [("book1", .raises "boom"),
       ("book2", .ok { book_title := "book2", search_keyword := "book2",
                       found_books := [], total_count := 0,
                       error := Option.none })] =
      .error
        "TypeError: __init__() got an unexpected keyword argument 'attempted_keywords'" := by
  constructor
  · rfl
  · rfl

/-- C2 (code evaluated at the failing read): no `WeReadSearchResult` —
in particular none produced by `search_book` — carries an
`attempted_keywords` attribute, so the read
`search_result.attempted_keywords` in `_update_notion` raises
`AttributeError` for every search outcome. -/
theorem search_outcome_lacks_attempted_keywords
    (oracle : Nat → Nat → ApiAttempt) (mr : Nat) (bt : String)
    (author : Option String) (custom : Option (List String)) :
    weReadSearchResultAttrs.contains "attempted_keywords" = false ∧
    updateNotionReadAttemptedKeywords (search_book oracle mr bt author custom) =
      .error
        "AttributeError: 'WeReadSearchResult' object has no attribute 'attempted_keywords'" := by
  constructor
  · rfl
  · rfl

lemma analyzeGo_error_invariant (dec : String → Option PyVal)
    (att : Nat → LLMAttempt) (bt : String) :
    ∀ (fuel k : Nat) (le : Option String),
      (analyzeGo dec att bt k fuel le).error ≠ Option.none →
      (analyzeGo dec att bt k fuel le).is_available = PyVal.bool false ∧
      (analyzeGo dec att bt k fuel le).confidence = PyVal.num 0 := by
  intro fuel
  induction fuel with
  | zero => intro k le _; exact ⟨rfl, rfl⟩
  | succ f ih =>
    intro k le herr
    cases hatt : att k with
    | fail e =>
      simp only [analyzeGo, hatt] at herr ⊢
      exact ih (k + 1) (some e) herr
    | ok text =>
      simp only [analyzeGo, hatt] at herr ⊢
      cases hp : parseLlmResponse dec text with
      | dict d => rw [hp] at herr; simp [buildAnalysisFromDict] at herr
      | none => rw [hp] at herr; exact ih (k + 1) _ herr
      | bool b => rw [hp] at herr; exact ih (k + 1) _ herr
      | num q => rw [hp] at herr; exact ih (k + 1) _ herr
      | str s => rw [hp] at herr; exact ih (k + 1) _ herr
      | list l => rw [hp] at herr; exact ih (k + 1) _ herr

/-- C4: every verdict produced by the analysis stage whose `error` field
is set has `is_available = False` and `confidence = 0.0`; the verdict
built by the orchestrator's per-book error path has its `error` set and
the same forced values. -/
theorem verdict_error_forces_unavailable
    (dec : String → Option PyVal) (att : Nat → LLMAttempt) (bt : String)
    (mr : Nat) (e : String)
    (herr : (analyze_search_result dec att bt mr).error ≠ Option.none) :
    (analyze_search_result dec att bt mr).is_available = PyVal.bool false ∧
    (analyze_search_result dec att bt mr).confidence = PyVal.num 0 ∧
    (analyzeStageErrorResult bt e).error = some e ∧
    (analyzeStageErrorResult bt e).is_available = PyVal.bool false ∧
    (analyzeStageErrorResult bt e).confidence = PyVal.num 0 := by
  obtain ⟨h1, h2⟩ := analyzeGo_error_invariant dec att bt mr 0 Option.none herr
  exact ⟨h1, h2, rfl, rfl, rfl⟩

theorem verdict_error_forces_unavailable_witness :
    (analyze_search_result decNone failAtt "b" 1).error ≠ Option.none ∧
    (analyze_search_result decNone failAtt "b" 1).is_available = PyVal.bool false ∧
    (analyze_search_result decNone failAtt "b" 1).confidence = PyVal.num 0 := by
  have h := verdict_error_forces_unavailable decNone failAtt "b" 1 "boom" (by decide)
  exact ⟨by decide, h.1, h.2.1⟩

lemma parseKeywordsResponse_keywords_ne_nil (dec : String → Option PyVal)
    (text bt : String) :
    (parseKeywordsResponse dec text bt).keywords ≠ [] := by
  unfold parseKeywordsResponse
  cases hp : parseLlmResponse dec text with
  | dict d =>
    simp only []
    cases hk : (PyVal.dict d).get "keywords" (.list []) with
    | list l =>
      cases l with
      | nil => simp
      | cons x xs => simp
    | none => simp
    | bool b => simp
    | num q => simp
    | str s => simp
    | dict d2 => simp
  | none => simp
  | bool b => simp
  | num q => simp
  | str s => simp
  | list l => simp

lemma generateGo_keywords_ne_nil (dec : String → Option PyVal)
    (att : Nat → LLMAttempt) (bt : String) (author : Option String) :
    ∀ (fuel k : Nat) (le : Option String),
      (generateGo dec att bt author k fuel le).keywords ≠ [] := by
  intro fuel
  induction fuel with
  | zero =>
    intro k le
    simp [generateGo, defaultGenKeywords]
  | succ f ih =>
    intro k le
    cases hatt : att k with
    | fail e =>
      simp only [generateGo, hatt]
      exact ih (k + 1) (some e)
    | ok text =>
      simp only [generateGo, hatt]
      exact parseKeywordsResponse_keywords_ne_nil dec _ bt

lemma generateGo_allFail (dec : String → Option PyVal)
    (att : Nat → LLMAttempt) (bt : String) (author : Option String)
    (errs : Nat → String) :
    ∀ (fuel k : Nat) (le : Option String),
      (∀ j, j < fuel → att (k + j) = .fail (errs (k + j))) →
      generateGo dec att bt author k fuel le =
        { book_title := bt, keywords := defaultGenKeywords bt author,
          corrected_title := .none, corrected_author := .none,
          reasoning := .none,
          error := some ("LLM生成失败，使用默认关键词: " ++
            pyStrOpt (lastFailErr errs k le fuel)) } := by
  intro fuel
  induction fuel with
  | zero => intro k le _; rfl
  | succ f ih =>
    intro k le hall
    have h0 : att k = .fail (errs k) := by
      have := hall 0 (by omega)
      simpa using this
    have hall' : ∀ j, j < f → att (k + 1 + j) = .fail (errs (k + 1 + j)) := by
      intro j hj
      have := hall (j + 1) (by omega)
      have e : k + (j + 1) = k + 1 + j := by omega
      rwa [e] at this
    simp only [generateGo, h0]
    rw [ih (k + 1) (some (errs k)) hall']
    cases f with
    | zero => rfl
    | succ f' =>
      have e : k + 1 + f' = k + (f' + 1) := by omega
      simp only [lastFailErr, e]

/-- C7: keyword generation never raises (it is a total function) and the
returned keyword list is never empty; when every remote attempt fails,
the result is exactly `[title]` plus `"{title} {author}"` when an author
is given, with `error` set and describing the last failure; when the
response is unparseable or carries no usable `keywords` entry, the
returned list is exactly `[title]`. -/
theorem generate_keywords_never_empty
    (dec : String → Option PyVal) (att : Nat → LLMAttempt) (bt : String)
    (author : Option String) (mr : Nat) (errs : Nat → String)
    (text : String) :
    (generate_search_keywords dec att bt author mr).keywords ≠ [] ∧
    ((∀ k, k < mr → att k = .fail (errs k)) →
      (generate_search_keywords dec att bt author mr).keywords =
        defaultGenKeywords bt author ∧
      ((generate_search_keywords dec att bt author mr).error).isSome ∧
      (∀ m, mr = m + 1 →
        (generate_search_keywords dec att bt author mr).error =
          some ("LLM生成失败，使用默认关键词: " ++ errs m))) ∧
    (0 < mr → att 0 = .ok text →
      keywordsUsable ((parseLlmResponse dec
        (String.mk (pyStrip text.data))).get "keywords" (.list [])) = false →
      (generate_search_keywords dec att bt author mr).keywords =
        [.str bt]) := by
  refine ⟨generateGo_keywords_ne_nil dec att bt author mr 0 Option.none, ?_, ?_⟩
  · intro hall
    have hall' : ∀ j, j < mr → att (0 + j) = .fail (errs (0 + j)) := by
      intro j hj
      rw [Nat.zero_add]
      exact hall j hj
    have h := generateGo_allFail dec att bt author errs mr 0 Option.none hall'
    unfold generate_search_keywords
    rw [h]
    refine ⟨rfl, rfl, ?_⟩
    intro m hm
    subst hm
    simp [lastFailErr, pyStrOpt]
  · intro hmr ha husable
    obtain ⟨m, rfl⟩ : ∃ m, mr = m + 1 := ⟨mr - 1, by omega⟩
    unfold generate_search_keywords
    simp only [generateGo, ha]
    unfold parseKeywordsResponse
    cases hp : parseLlmResponse dec (String.mk (pyStrip text.data)) with
    | dict d =>
      rw [hp] at husable
      simp only []
      cases hk : (PyVal.dict d).get "keywords" (.list []) with
      | list l =>
        rw [hk] at husable
        cases l with
        | nil => rfl
        | cons x xs => simp [keywordsUsable] at husable
      | none => rfl
      | bool b => rfl
      | num q => rfl
      | str s => rfl
      | dict d2 => rfl
    | none => rfl
    | bool b => rfl
    | num q => rfl
    | str s => rfl
    | list l => rfl

theorem generate_keywords_never_empty_witness :
    genFailAtt 0 = LLMAttempt.fail "rate limit" ∧
    (generate_search_keywords decNone genFailAtt "Sapiens" (some "Harari") 3).keywords =
      defaultGenKeywords "Sapiens" (some "Harari") ∧
    (generate_search_keywords decNone genFailAtt "Sapiens" (some "Harari") 3).error =
      some ("LLM生成失败，使用默认关键词: " ++ "rate limit") ∧
    genOkAtt 0 = LLMAttempt.ok "junk" ∧
    (generate_search_keywords decNone genOkAtt "Sapiens" Option.none 1).keywords =
      [PyVal.str "Sapiens"] := by
  have h := generate_keywords_never_empty decNone genFailAtt "Sapiens"
    (some "Harari") 3 (fun _ => "rate limit") "junk"
  have h2 := generate_keywords_never_empty decNone genOkAtt "Sapiens"
    Option.none 1 (fun _ => "") "junk"
  have hfail := h.2.1 (fun k _ => rfl)
  have hok := h2.2.2 (by decide) rfl (by decide)
  exact ⟨rfl, hfail.1, hfail.2.2 2 rfl, rfl, hok⟩

/-- C9 counterexample: a well-formed model response carrying six keywords
makes `generate_search_keywords` return a six-entry KeywordSet — the code
enforces no upper bound of 5. -/
theorem keywords_length_counterexample :
    (generate_search_keywords dec6 okK "t" Option.none 3).keywords.length = 6 ∧
    ¬ ((generate_search_keywords dec6 okK "t" Option.none 3).keywords.length ≤ 5) := by
  constructor
  · rfl
  · decide

/-- C9 amended: every KeywordSet produced by keyword generation is a
non-empty ordered sequence whose order equals generation order (a usable
parsed `keywords` list is returned exactly as decoded); the 3–5 range is
requested in the prompt but the upper bound of 5 is not enforced. -/
theorem keywords_nonempty_order_preserved
    (dec : String → Option PyVal) (att : Nat → LLMAttempt) (bt : String)
    (author : Option String) (mr : Nat) (text : String) (l : List PyVal) :
    (generate_search_keywords dec att bt author mr).keywords ≠ [] ∧
    (0 < mr → att 0 = .ok text →
      (parseLlmResponse dec (String.mk (pyStrip text.data))).get "keywords"
        (.list []) = .list l →
      l ≠ [] →
      (generate_search_keywords dec att bt author mr).keywords = l) := by
  refine ⟨generateGo_keywords_ne_nil dec att bt author mr 0 Option.none, ?_⟩
  intro hmr ha hget hl
  obtain ⟨m, rfl⟩ : ∃ m, mr = m + 1 := ⟨mr - 1, by omega⟩
  unfold generate_search_keywords
  simp only [generateGo, ha]
  unfold parseKeywordsResponse
  cases hp : parseLlmResponse dec (String.mk (pyStrip text.data)) with
  | dict d =>
    rw [hp] at hget
    simp only [hget]
    cases l with
    | nil => exact absurd rfl hl
    | cons x xs => rfl
  | none =>
    rw [hp] at hget
    simp [PyVal.get] at hget
    exact absurd hget hl
  | bool b =>
    rw [hp] at hget
    simp [PyVal.get] at hget
    exact absurd hget hl
  | num q =>
    rw [hp] at hget
    simp [PyVal.get] at hget
    exact absurd hget hl
  | str s =>
    rw [hp] at hget
    simp [PyVal.get] at hget
    exact absurd hget hl
  | list l2 =>
    rw [hp] at hget
    simp [PyVal.get] at hget
    exact absurd hget hl

theorem keywords_nonempty_order_preserved_witness :
    (0 : Nat) < 3 ∧
    okK 0 = LLMAttempt.ok "K" ∧
    (generate_search_keywords dec6 okK "t" Option.none 3).keywords ≠ [] ∧
    (generate_search_keywords dec6 okK "t" Option.none 3).keywords =
      [PyVal.str "a", PyVal.str "b", PyVal.str "c", PyVal.str "d",
       PyVal.str "e", PyVal.str "f"] := by
  have h := keywords_nonempty_order_preserved dec6 okK "t" Option.none 3 "K"
    [PyVal.str "a", PyVal.str "b", PyVal.str "c", PyVal.str "d",
     PyVal.str "e", PyVal.str "f"]
  refine ⟨by decide, rfl, h.1, ?_⟩
  exact h.2 (by decide) rfl rfl (by intro hx; exact List.noConfusion hx)

lemma parseLlmResponse_default (dec : String → Option PyVal) (text : String)
    (h1 : strictLayer dec text = Option.none)
    (h2 : fencedLayerByOffsets dec text = Option.none)
    (h3 : braceSpanLayer dec text = Option.none) :
    parseLlmResponse dec text = defaultAnalysisObj := by
  rw [parseLlmResponse_eq_chain]
  unfold fallbackChainByOffsets
  rw [h1, h2, h3]
  rfl

/-- C10: when no extraction layer can parse the analysis model's
response text, `analyze_search_result` returns a verdict with
`is_available = False`, `confidence = 0.0`, the fixed parse-failure
reasoning string, and `error` unset — so the book is counted unavailable
but never selected into the `failed_books` list of the run summary,
which keeps only verdicts with a truthy `error`. -/
theorem analyze_parse_failure_verdict
    (dec : String → Option PyVal) (att : Nat → LLMAttempt) (bt : String)
    (mr : Nat) (text : String) (bk : Book)
    (hmr : 0 < mr)
    (ha : att 0 = .ok text)
    (h1 : strictLayer dec text = Option.none)
    (h2 : fencedLayerByOffsets dec text = Option.none)
    (h3 : braceSpanLayer dec text = Option.none) :
    (analyze_search_result dec att bt mr).is_available = PyVal.bool false ∧
    (analyze_search_result dec att bt mr).confidence = PyVal.num 0 ∧
    (analyze_search_result dec att bt mr).reasoning =
      PyVal.str "LLM响应解析失败" ∧
    (analyze_search_result dec att bt mr).error = Option.none ∧
    failedBooks [bk] [analyze_search_result dec att bt mr] = [] := by
  obtain ⟨m, rfl⟩ : ∃ m, mr = m + 1 := ⟨mr - 1, by omega⟩
  have hp := parseLlmResponse_default dec text h1 h2 h3
  have hr : analyze_search_result dec att bt (m + 1) =
      buildAnalysisFromDict bt defaultAnalysisObj := by
    unfold analyze_search_result
    simp only [analyzeGo, ha, hp, defaultAnalysisObj]
  rw [hr]
  refine ⟨rfl, rfl, rfl, rfl, rfl⟩

theorem analyze_parse_failure_verdict_witness :
    (0 : Nat) < 3 ∧
    okJunk 0 = LLMAttempt.ok "junk" ∧
    strictLayer decNone "junk" = Option.none ∧
    (analyze_search_result decNone okJunk "b" 3).is_available =
      PyVal.bool false ∧
    (analyze_search_result decNone okJunk "b" 3).confidence = PyVal.num 0 ∧
    (analyze_search_result decNone okJunk "b" 3).reasoning =
      PyVal.str "LLM响应解析失败" ∧
    (analyze_search_result decNone okJunk "b" 3).error = Option.none ∧
    failedBooks [witnessBookRec] [analyze_search_result decNone okJunk "b" 3] =
      [] := by
  have h := analyze_parse_failure_verdict decNone okJunk "b" 3 "junk"
    witnessBookRec (by decide) rfl rfl rfl rfl
  exact ⟨by decide, rfl, rfl, h.1, h.2.1, h.2.2.1, h.2.2.2.1, h.2.2.2.2⟩
